import Mathlib

/-!
Verification of the MarketDataAnomalyDetection repository.

Shallow embedding conventions:
* Python floats (prices, volumes, percent changes, scores) are modelled as `ℚ`.
* Timestamps are modelled as `ℚ` minutes since an arbitrary epoch, so that the
  source's `(t2 - t1).total_seconds() / 60` becomes plain subtraction.
* Python exceptions are modelled with `Except String` (or `Option` for a call
  that either returns or raises); a `try/except` that swallows the error and
  returns a default becomes a `match` on the `Except` value.
* External library objects (sklearn models and scalers, the MSSQL database,
  joblib files) are modelled as opaque handles plus environment functions that
  give their behaviour; the repository's own control flow around them is
  embedded faithfully.
-/

/-- A market data point as consumed by the detection algorithms: the Python
code passes dicts with keys `symbol`, `timestamp`, `price`, `volume`. -/
structure DataPoint where
  symbol : String
  timestamp : ℚ
  price : ℚ
  volume : ℚ
deriving DecidableEq, Repr

instance : Inhabited DataPoint := ⟨⟨"", 0, 0, 0⟩⟩

/-- `sort_values('timestamp')` on a symbol's rows: a stable sort by timestamp. -/
def sortByTs (l : List DataPoint) : List DataPoint :=
  List.insertionSort (fun a b => a.timestamp ≤ b.timestamp) l

/-- Helper for `dedupFirst`: keep each element not already seen, tracking the
seen set. -/
def dedupFirstAux (seen : List String) : List String → List String
  | [] => []
  | x :: xs =>
    if x ∈ seen then dedupFirstAux seen xs
    else x :: dedupFirstAux (x :: seen) xs

/-- `pandas.unique` over the `symbol` column: the symbols in order of first
occurrence, each once. -/
def dedupFirst (l : List String) : List String := dedupFirstAux [] l

theorem mem_dedupFirstAux (s : String) :
    ∀ (l seen : List String), s ∈ dedupFirstAux seen l ↔ s ∈ l ∧ s ∉ seen := by
  intro l
  induction l with
  | nil => simp [dedupFirstAux]
  | cons x xs ih =>
    intro seen
    by_cases hx : x ∈ seen
    · rw [dedupFirstAux, if_pos hx, ih]
      constructor
      · rintro ⟨h1, h2⟩
        exact ⟨List.mem_cons_of_mem x h1, h2⟩
      · rintro ⟨h1, h2⟩
        rcases List.mem_cons.mp h1 with h1 | h1
        · exact absurd (h1 ▸ hx) h2
        · exact ⟨h1, h2⟩
    · rw [dedupFirstAux, if_neg hx]
      simp only [List.mem_cons, ih]
      constructor
      · rintro (h | ⟨h1, h2⟩)
        · exact ⟨Or.inl h, h ▸ hx⟩
        · exact ⟨Or.inr h1, fun hs => h2 (Or.inr hs)⟩
      · rintro ⟨h1 | h1, h2⟩
        · exact Or.inl h1
        · by_cases hsx : s = x
          · exact Or.inl hsx
          · exact Or.inr ⟨h1, by simp [List.mem_cons, hsx, h2]⟩

theorem mem_dedupFirst (s : String) (l : List String) :
    s ∈ dedupFirst l ↔ s ∈ l := by
  rw [dedupFirst, mem_dedupFirstAux]
  simp

theorem nodup_dedupFirstAux :
    ∀ (l seen : List String), (dedupFirstAux seen l).Nodup := by
  intro l
  induction l with
  | nil => intro seen; simp [dedupFirstAux]
  | cons x xs ih =>
    intro seen
    by_cases hx : x ∈ seen
    · rw [dedupFirstAux, if_pos hx]
      exact ih seen
    · rw [dedupFirstAux, if_neg hx, List.nodup_cons]
      refine ⟨fun hmem => ?_, ih (x :: seen)⟩
      exact ((mem_dedupFirstAux x xs (x :: seen)).mp hmem).2 (List.mem_cons_self x seen)

theorem nodup_dedupFirst (l : List String) : (dedupFirst l).Nodup :=
  nodup_dedupFirstAux l []

/-- Mean of a list of values (`Series.mean`); empty list gives `0/0 = 0`. -/
def listMean (l : List ℚ) : ℚ := l.sum / (l.length : ℚ)

/-- Sample variance with `ddof = 1`, the square of the pandas `std`; a window
of length ≤ 1 divides by zero, which models the `NaN` the source produces
there (such a window never yields an anomaly on either side below). -/
def sampleVar (l : List ℚ) : ℚ :=
  ((l.map fun x => (x - listMean l) ^ 2).sum) / ((l.length - 1 : ℕ) : ℚ)

/-- Generic list fact: filtering a `flatMap` over pairwise-distinct keys where
each group carries its own key picks out exactly that key's group. -/
theorem filter_flatMap_key {β : Type} (key : β → String) (f : String → List β)
    (s : String) :
    ∀ (names : List String), (∀ t ∈ names, ∀ b ∈ f t, key b = t) → names.Nodup →
      (names.flatMap f).filter (fun b => key b = s) =
        if s ∈ names then f s else [] := by
  intro names
  induction names with
  | nil => simp
  | cons x xs ih =>
    intro hf hnd
    rw [List.nodup_cons] at hnd
    rw [List.flatMap_cons, List.filter_append,
      ih (fun t ht b hb => hf t (List.mem_cons_of_mem x ht) b hb) hnd.2]
    by_cases hxs : x = s
    · subst hxs
      have h1 : (f x).filter (fun b => key b = x) = f x := by
        rw [List.filter_eq_self]
        intro b hb
        simp [hf x (List.mem_cons_self x xs) b hb]
      rw [h1]
      simp [hnd.1]
    · have h1 : (f x).filter (fun b => key b = s) = [] := by
        rw [List.filter_eq_nil_iff]
        intro b hb
        simp [hf x (List.mem_cons_self x xs) b hb, hxs]
      rw [h1]
      have hsx : ¬ s = x := fun h => hxs h.symm
      simp [List.mem_cons, hsx]

/-! ## Adapter layer (src/src/adapters) -/

/-- A `MarketDataPoint` as produced by `BaseDataAdapter._parse_data_point`:
`price`/`volume` are extracted from the payload when present, `data_type`
comes from the field-name heuristic. -/
structure MarketPoint where
  symbol : String
  timestamp : ℚ
  price : Option ℚ
  volume : Option ℚ
  data_type : String
deriving DecidableEq, Repr

/-- An adapter as the `DataSourceManager` sees it: its connected flag and the
behaviour of its `get_latest_data` coroutine (which may raise, modelled by
`Except.error`). -/
structure Adapter where
  connected : Bool
  latest : List String → Except String (List MarketPoint)

/-- `DataSourceManager`: an insertion-ordered mapping from adapter name to
adapter (`self.adapters`). -/
structure DataSourceManager where
  adapters : List (String × Adapter)

/-- The adapter-selection step of `DataSourceManager.get_latest_data`: with a
falsy `source_names` (`None` or `[]`, both modelled by `[]`) all adapters are
queried, otherwise the named ones that exist, dict-deduplicated. -/
def selectAdapters (mgr : DataSourceManager) (source_names : List String) :
    List (String × Adapter) :=
  if source_names = [] then mgr.adapters
  else
    source_names.foldl
      (fun acc n =>
        if acc.any (fun p => p.1 = n) then acc
        else
          match mgr.adapters.find? (fun p => p.1 = n) with
          | some p => acc ++ [p]
          | none => acc)
      []

/-- `DataSourceManager.get_latest_data`: query every selected, connected
adapter; extend the accumulator with each successful result, log and skip any
adapter whose call raises. -/
def DataSourceManager.get_latest_data (mgr : DataSourceManager)
    (symbols : List String) (source_names : List String) : List MarketPoint :=
  let tasks := (selectAdapters mgr source_names).filter (fun p => p.2.connected)
  tasks.foldl
    (fun all_data p =>
      match p.2.latest symbols with
      | .ok data => all_data ++ data
      | .error _ => all_data)
    []

/-- `DataSourceManager.is_healthy`: false if the adapter mapping is empty,
otherwise `all(adapter.is_connected() ...)`. -/
def DataSourceManager.is_healthy (mgr : DataSourceManager) : Bool :=
  if mgr.adapters.isEmpty then false
  else mgr.adapters.all (fun p => p.2.connected)

/-- A record in the Gemfire cache simulation (`GemfireAdapter._get_from_cache`
builds five of these from the current time). -/
structure CacheRecord where
  timestamp : ℚ
  price : ℚ
  volume : ℚ
  bid : ℚ
  ask : ℚ
deriving DecidableEq, Repr

/-- `GemfireAdapter._get_from_cache`: five sample records at
`now - i` minutes, price `100.0 + i*0.1`, volume `1000 + i*10`. -/
def gemfireGetFromCache (now : ℚ) : List CacheRecord :=
  (List.range 5).map fun i =>
    { timestamp := now - i
      price := 100 + i / 10
      volume := 1000 + i * 10
      bid := 999 / 10 + i / 10
      ask := 1001 / 10 + i / 10 }

/-- `_parse_data_point` applied to a Gemfire cache record: price and volume
fields are present, and the bid/ask fields make `_determine_data_type`
classify it as a quote. -/
def parseCacheRecord (r : CacheRecord) (symbol : String) : MarketPoint :=
  { symbol := symbol
    timestamp := r.timestamp
    price := some r.price
    volume := some r.volume
    data_type := "quote" }

/-- `GemfireAdapter.get_latest_data`: when disconnected the body raises and
the handler returns `[]`; otherwise, for each symbol, take the first `limit`
cached records and parse them.  Note the slice `cached_data[:limit]` sits
inside the per-symbol loop. -/
def GemfireAdapter.get_latest_data (connected : Bool) (now : ℚ)
    (symbols : List String) (limit : ℕ) : List MarketPoint :=
  if ¬ connected then []
  else
    symbols.flatMap fun s =>
      let cached := gemfireGetFromCache now
      if cached.isEmpty then []
      else (cached.take limit).map (fun r => parseCacheRecord r s)

/-- A row of the `market_data` table as returned by
`MSSQLAdapter._execute_query`. -/
structure DbRow where
  symbol : String
  timestamp : ℚ
  price : Option ℚ
  volume : Option ℚ
deriving DecidableEq, Repr

/-- The `SELECT TOP {limit} ... WHERE symbol IN (...) ORDER BY timestamp DESC`
query: rows with a matching symbol, newest first, at most `limit` of them. -/
def mssqlQueryLatest (db : List DbRow) (symbols : List String) (limit : ℕ) :
    List DbRow :=
  ((List.insertionSort (fun a b => b.timestamp ≤ a.timestamp)
      (db.filter fun r => symbols.contains r.symbol)).take limit)

/-- `_parse_data_point` applied to an MSSQL row's rebuilt payload. -/
def parseDbRow (r : DbRow) : MarketPoint :=
  { symbol := r.symbol
    timestamp := r.timestamp
    price := r.price
    volume := r.volume
    data_type := "price" }

/-- `MSSQLAdapter.get_latest_data`: when disconnected the body raises and the
handler returns `[]`; otherwise one parsed point per row of the `TOP limit`
query result. -/
def MSSQLAdapter.get_latest_data (connected : Bool) (db : List DbRow)
    (symbols : List String) (limit : ℕ) : List MarketPoint :=
  if ¬ connected then []
  else (mssqlQueryLatest db symbols limit).map parseDbRow

deriving instance DecidableEq for Except

/-- The state of `BaseDataAdapter` relevant to `heartbeat`: the outcome the
`test_connection` probe would have right now (`Except.error` models a raise),
and the stored `_last_heartbeat`. -/
structure BaseAdapterState where
  test_connection : Except String Bool
  last_heartbeat : Option ℚ
deriving DecidableEq, Repr

/-- `BaseDataAdapter.heartbeat`: awaits `test_connection`; on a normal return
it stamps `_last_heartbeat = now` and returns the probe's value, on a raise
the handler returns `False` without reaching the timestamp assignment. -/
def BaseAdapterState.heartbeat (a : BaseAdapterState) (now : ℚ) :
    Bool × BaseAdapterState :=
  match a.test_connection with
  | .ok b => (b, { a with last_heartbeat := some now })
  | .error _ => (false, a)

theorem foldl_except_extend {γ : Type} (g : γ → Except String (List MarketPoint)) :
    ∀ (l : List γ) (acc : List MarketPoint),
      l.foldl
        (fun all_data p => match g p with | .ok data => all_data ++ data | .error _ => all_data)
        acc
      = acc ++ (l.filterMap (fun p => (g p).toOption)).flatten := by
  intro l
  induction l with
  | nil => simp
  | cons x xs ih =>
    intro acc
    simp only [List.foldl_cons, List.filterMap_cons]
    cases hx : g x with
    | ok data => simp [ih, Except.toOption, List.append_assoc]
    | error e => simp [ih, Except.toOption]

/-- Claim C5: `DataSourceManager.get_latest_data` never raises, and its result
is exactly the concatenation of the results of the queried (selected,
connected) adapters whose `get_latest_data` succeeded; an adapter whose call
raises contributes nothing. -/
theorem managerGetLatest_isolates_failures (mgr : DataSourceManager)
    (symbols source_names : List String) :
    mgr.get_latest_data symbols source_names =
      (((selectAdapters mgr source_names).filter (fun p => p.2.connected)).filterMap
        (fun p => (p.2.latest symbols).toOption)).flatten := by
  unfold DataSourceManager.get_latest_data
  rw [foldl_except_extend (fun p : String × Adapter => p.2.latest symbols)]
  simp

/-- Claim C8: `is_healthy` is true iff the registry holds at least one adapter
and every held adapter is connected (so it is false on an empty mapping). -/
theorem isHealthy_iff (mgr : DataSourceManager) :
    mgr.is_healthy = true ↔
      mgr.adapters ≠ [] ∧ ∀ p ∈ mgr.adapters, p.2.connected = true := by
  unfold DataSourceManager.is_healthy
  cases h : mgr.adapters with
  | nil => simp [h]
  | cons a l => simp [h, List.all_eq_true]

/-- Claim C6, counterexample: a connected Gemfire adapter queried for two
symbols with `limit = 1` returns two points — the `limit` bound is applied
per symbol, not per call, so the claimed per-call bound fails. -/
theorem gemfireLatest_limit_counterexample :
    ¬ ((GemfireAdapter.get_latest_data true 0 ["AAPL", "GOOGL"] 1).length ≤ 1) := by
  decide

theorem length_flatMap_le_of_each {α β : Type} (f : α → List β) (k : ℕ)
    (l : List α) (h : ∀ a ∈ l, (f a).length ≤ k) :
    (l.flatMap f).length ≤ k * l.length := by
  induction l with
  | nil => simp
  | cons x xs ih =>
    rw [List.flatMap_cons, List.length_append, List.length_cons, Nat.mul_succ]
    have h1 := h x (List.mem_cons_self x xs)
    have h2 := ih (fun a ha => h a (List.mem_cons_of_mem x ha))
    omega

/-- Claim C6 (amended): `MSSQLAdapter.get_latest_data` returns at most `limit`
points in total per call (the bound comes from `SELECT TOP {limit}`), while
`GemfireAdapter.get_latest_data` applies `limit` per symbol, so its total is
only bounded by `limit * symbols.length` and can exceed `limit` as soon as
more than one symbol is queried. -/
theorem adapterLatest_limit_amended :
    (∀ (connected : Bool) (db : List DbRow) (symbols : List String) (limit : ℕ),
      (MSSQLAdapter.get_latest_data connected db symbols limit).length ≤ limit) ∧
    (∀ (connected : Bool) (now : ℚ) (symbols : List String) (limit : ℕ),
      (GemfireAdapter.get_latest_data connected now symbols limit).length ≤
        limit * symbols.length) := by
  constructor
  · intro connected db symbols limit
    cases connected with
    | false => simp [MSSQLAdapter.get_latest_data]
    | true =>
      simp only [MSSQLAdapter.get_latest_data, mssqlQueryLatest]
      rw [if_neg (by simp), List.length_map, List.length_take]
      exact min_le_left _ _
  · intro connected now symbols limit
    cases connected with
    | false => simp [GemfireAdapter.get_latest_data]
    | true =>
      simp only [GemfireAdapter.get_latest_data]
      rw [if_neg (by simp)]
      apply length_flatMap_le_of_each
      intro s _
      by_cases hc : (gemfireGetFromCache now).isEmpty
      · simp [hc]
      · rw [if_neg (by simp [hc]), List.length_map, List.length_take]
        exact min_le_left _ _

/-- Claim C10: `heartbeat` never raises; when `test_connection` raises it
returns `False` and leaves `_last_heartbeat` unchanged, and when
`test_connection` returns normally (whether `True` or `False`) it returns
that value and stamps `_last_heartbeat` with the current time — so the stored
timestamp records the last completed probe, not the last successful one. -/
theorem heartbeat_spec (a : BaseAdapterState) (now : ℚ) :
    (∀ e, a.test_connection = .error e → a.heartbeat now = (false, a)) ∧
    (∀ b, a.test_connection = .ok b →
      a.heartbeat now = (b, { a with last_heartbeat := some now })) := by
  constructor
  · intro e he
    unfold BaseAdapterState.heartbeat
    rw [he]
  · intro b hb
    unfold BaseAdapterState.heartbeat
    rw [hb]

theorem heartbeat_spec_witness :
    ((⟨Except.error "probe raised", some 3⟩ : BaseAdapterState).test_connection
        = Except.error "probe raised"
      ∧ (⟨Except.error "probe raised", some 3⟩ : BaseAdapterState).heartbeat 5
        = (false, ⟨Except.error "probe raised", some 3⟩))
    ∧ ((⟨Except.ok false, none⟩ : BaseAdapterState).test_connection = Except.ok false
      ∧ (⟨Except.ok false, none⟩ : BaseAdapterState).heartbeat 5
        = (false, ⟨Except.ok false, some 5⟩)) :=
  ⟨⟨rfl, (heartbeat_spec ⟨Except.error "probe raised", some 3⟩ 5).1 "probe raised" rfl⟩,
   ⟨rfl, (heartbeat_spec ⟨Except.ok false, none⟩ 5).2 false rfl⟩⟩

/-! ## Detection engine (src/python-services/detection-engine/src/algorithms) -/

/-- The anomaly dict built by `MissingDataDetector.detect` (the fields a
theorem can speak about; `detected_at` is wall-clock time and is omitted). -/
structure MissingAnomaly where
  symbol : String
  anomaly_type : String
  severity : String
  gap_minutes : ℚ
  last_data_time : ℚ
  next_data_time : ℚ
deriving DecidableEq, Repr

/-- The inner loop of `MissingDataDetector.detect`: `for i in range(1, len)`
compares row `i-1` with row `i` of the time-sorted symbol data and emits one
anomaly per oversized gap. -/
def gapScan (T : ℚ) (s : String) : List DataPoint → List MissingAnomaly
  | p :: q :: rest =>
    (if q.timestamp - p.timestamp > T then
      [{ symbol := s
         anomaly_type := "missing_data"
         severity := if q.timestamp - p.timestamp > T * 2 then "high" else "medium"
         gap_minutes := q.timestamp - p.timestamp
         last_data_time := p.timestamp
         next_data_time := q.timestamp }]
     else []) ++ gapScan T s (q :: rest)
  | _ => []

/-- `MissingDataDetector.detect`: empty input short-circuits; otherwise group
by symbol (in order of first occurrence), sort each group by timestamp and
scan consecutive gaps. -/
def MissingDataDetector.detect (T : ℚ) (data_points : List DataPoint) :
    List MissingAnomaly :=
  if data_points.isEmpty then []
  else
    (dedupFirst (data_points.map (fun p => p.symbol))).flatMap fun symbol =>
      gapScan T symbol (sortByTs (data_points.filter (fun p => p.symbol = symbol)))

/-- The consecutive pairs of a list, in order. -/
def consecutivePairs {α : Type} (l : List α) : List (α × α) := l.zip l.tail

/-- Specification-side restatement of the missing-data claim: for a symbol
`s`, one anomaly per time-consecutive pair of its points whose gap strictly
exceeds the threshold, severity `high` iff the gap exceeds twice the
threshold, `medium` otherwise. -/
def missingDataSpec (T : ℚ) (s : String) (pts : List DataPoint) :
    List MissingAnomaly :=
  (consecutivePairs (sortByTs (pts.filter (fun p => p.symbol = s)))).filterMap
    fun pq =>
      let gap := pq.2.timestamp - pq.1.timestamp
      if gap > T then
        some { symbol := s
               anomaly_type := "missing_data"
               severity := if gap > 2 * T then "high" else "medium"
               gap_minutes := gap
               last_data_time := pq.1.timestamp
               next_data_time := pq.2.timestamp }
      else none

theorem gapScan_symbol (T : ℚ) (s : String) :
    ∀ (l : List DataPoint), ∀ a ∈ gapScan T s l, a.symbol = s := by
  intro l
  induction l with
  | nil => simp [gapScan]
  | cons p tail ih =>
    cases tail with
    | nil => simp [gapScan]
    | cons q rest =>
      intro a ha
      rw [gapScan, List.mem_append] at ha
      rcases ha with ha | ha
      · by_cases hgap : q.timestamp - p.timestamp > T
        · rw [if_pos hgap, List.mem_singleton] at ha
          rw [ha]
        · rw [if_neg hgap] at ha
          simp at ha
      · exact ih a ha

theorem gapScan_eq_pairs (T : ℚ) (s : String) :
    ∀ (l : List DataPoint),
      gapScan T s l = (consecutivePairs l).filterMap fun pq =>
        let gap := pq.2.timestamp - pq.1.timestamp
        if gap > T then
          some { symbol := s
                 anomaly_type := "missing_data"
                 severity := if gap > 2 * T then "high" else "medium"
                 gap_minutes := gap
                 last_data_time := pq.1.timestamp
                 next_data_time := pq.2.timestamp }
        else none := by
  intro l
  induction l with
  | nil => simp [gapScan, consecutivePairs]
  | cons p tail ih =>
    cases tail with
    | nil => simp [gapScan, consecutivePairs]
    | cons q rest =>
      have hpair : consecutivePairs (p :: q :: rest) =
          (p, q) :: consecutivePairs (q :: rest) := rfl
      rw [gapScan, hpair, List.filterMap_cons, ih]
      by_cases hgap : q.timestamp - p.timestamp > T
      · rw [if_pos hgap]
        simp only [if_pos hgap, mul_comm]
        rfl
      · rw [if_neg hgap]
        simp only [if_neg hgap]
        rfl

/-- Claim C1: for every input and symbol, `MissingDataDetector.detect` emits
exactly one `missing_data` anomaly per time-consecutive pair of that symbol's
points whose gap strictly exceeds `threshold_minutes` and no anomaly
otherwise; severity is `high` iff the gap exceeds twice the threshold and
`medium` otherwise; a symbol with 0 or 1 points contributes nothing (it has
no consecutive pair). -/
theorem missingData_detect_spec (T : ℚ) (pts : List DataPoint) (s : String) :
    (MissingDataDetector.detect T pts).filter (fun a => a.symbol = s) =
      missingDataSpec T s pts := by
  unfold MissingDataDetector.detect
  by_cases hemp : pts.isEmpty
  · have hnil : pts = [] := by
      cases pts with
      | nil => rfl
      | cons a l => simp [List.isEmpty] at hemp
    subst hnil
    simp [missingDataSpec, sortByTs, List.insertionSort, consecutivePairs]
  · rw [if_neg (by simpa using hemp)]
    rw [filter_flatMap_key (fun a => a.symbol)
      (fun symbol => gapScan T symbol (sortByTs (pts.filter (fun p => p.symbol = symbol))))
      s _ (fun t _ b hb => gapScan_symbol T t _ b hb)
      (nodup_dedupFirst _)]
    by_cases hs : s ∈ dedupFirst (pts.map (fun p => p.symbol))
    · rw [if_pos hs, missingDataSpec, gapScan_eq_pairs]
    · rw [if_neg hs]
      have hfil : pts.filter (fun p => p.symbol = s) = [] := by
        rw [List.filter_eq_nil_iff]
        intro p hp hps
        apply hs
        rw [mem_dedupFirst]
        simp only [decide_eq_true_eq] at hps
        exact hps ▸ List.mem_map_of_mem (fun p => p.symbol) hp
      rw [missingDataSpec, hfil]
      simp [sortByTs, List.insertionSort, consecutivePairs]

/-- The value of one entry of `Series.pct_change() * 100` under the source's
floating-point semantics: finite, ±infinity (previous price zero, current
nonzero) or NaN (0/0, and the first row of a symbol). -/
inductive PctVal where
  | fin (q : ℚ)
  | posInf
  | negInf
  | nan
deriving DecidableEq, Repr

/-- `pct_change` of one consecutive pair, times 100. -/
def pctChange (prev cur : ℚ) : PctVal :=
  if prev = 0 then
    if cur > 0 then .posInf else if cur < 0 then .negInf else .nan
  else .fin ((cur - prev) / prev * 100)

/-- `abs(price_change) > t` under the same semantics (`abs` of ±infinity
exceeds any finite threshold; comparisons against NaN are false — though the
source never compares a NaN because `pd.isna` rows are skipped first). -/
def PctVal.absGt : PctVal → ℚ → Bool
  | .fin q, t => |q| > t
  | .posInf, _ => true
  | .negInf, _ => true
  | .nan, _ => false

/-- The anomaly dict built by `PriceMovementDetector.detect`. -/
structure PriceAnomaly where
  symbol : String
  anomaly_type : String
  severity : String
  price_change : PctVal
  current_price : ℚ
  timestamp : ℚ
deriving DecidableEq, Repr

/-- The row loop of `PriceMovementDetector.detect`: each row's change is
relative to the immediately preceding row of the time-sorted symbol data, the
first row (NaN change) is skipped via `pd.isna`. -/
def priceScan (T : ℚ) (s : String) : List DataPoint → List PriceAnomaly
  | p :: q :: rest =>
    (match pctChange p.price q.price with
     | .nan => []
     | v =>
       if v.absGt T then
         [{ symbol := s
            anomaly_type := "price_movement"
            severity := if v.absGt (T * 2) then "critical" else "high"
            price_change := v
            current_price := q.price
            timestamp := q.timestamp }]
       else [])
    ++ priceScan T s (q :: rest)
  | _ => []

/-- `PriceMovementDetector.detect`: empty input short-circuits; group by
symbol, skip symbols with fewer than two points, sort by timestamp, scan. -/
def PriceMovementDetector.detect (T : ℚ) (data_points : List DataPoint) :
    List PriceAnomaly :=
  if data_points.isEmpty then []
  else
    (dedupFirst (data_points.map (fun p => p.symbol))).flatMap fun symbol =>
      let symbol_data := sortByTs (data_points.filter (fun p => p.symbol = symbol))
      if symbol_data.length < 2 then [] else priceScan T symbol symbol_data

/-- Specification-side restatement of the price-movement claim for a symbol
`s`: an anomaly per consecutive pair whose percent change
`(p2 - p1) / p1 * 100` has absolute value strictly above the threshold,
severity `critical` iff it exceeds twice the threshold, `high` otherwise; the
first point of the symbol (no previous price) never triggers. -/
def priceMovementSpec (T : ℚ) (s : String) (pts : List DataPoint) :
    List PriceAnomaly :=
  (consecutivePairs (sortByTs (pts.filter (fun p => p.symbol = s)))).filterMap
    fun pq =>
      let c := (pq.2.price - pq.1.price) / pq.1.price * 100
      if |c| > T then
        some { symbol := s
               anomaly_type := "price_movement"
               severity := if |c| > 2 * T then "critical" else "high"
               price_change := .fin c
               current_price := pq.2.price
               timestamp := pq.2.timestamp }
      else none

theorem consecutivePairs_nil_of_short {α : Type} :
    ∀ (l : List α), l.length < 2 → consecutivePairs l = []
  | [], _ => rfl
  | [_], _ => rfl
  | _ :: _ :: _, h => by simp only [List.length_cons] at h; omega

theorem priceScan_symbol (T : ℚ) (s : String) :
    ∀ (l : List DataPoint), ∀ a ∈ priceScan T s l, a.symbol = s := by
  intro l
  induction l with
  | nil => simp [priceScan]
  | cons p tail ih =>
    cases tail with
    | nil => simp [priceScan]
    | cons q rest =>
      intro a ha
      rw [priceScan, List.mem_append] at ha
      rcases ha with ha | ha
      · cases hv : pctChange p.price q.price with
        | nan => rw [hv] at ha; simp at ha
        | fin c =>
          rw [hv] at ha
          by_cases habs : PctVal.absGt (.fin c) T = true
          · simp only [habs, if_pos] at ha
            rw [List.mem_singleton] at ha
            rw [ha]
          · simp only [habs] at ha
            simp at ha
        | posInf =>
          rw [hv] at ha
          simp only [PctVal.absGt, if_pos] at ha
          rw [List.mem_singleton] at ha
          rw [ha]
        | negInf =>
          rw [hv] at ha
          simp only [PctVal.absGt, if_pos] at ha
          rw [List.mem_singleton] at ha
          rw [ha]
      · exact ih a ha

theorem priceScan_eq_pairs (T : ℚ) (s : String) :
    ∀ (l : List DataPoint), (∀ p ∈ l, p.price ≠ 0) →
      priceScan T s l = (consecutivePairs l).filterMap fun pq =>
        let c := (pq.2.price - pq.1.price) / pq.1.price * 100
        if |c| > T then
          some { symbol := s
                 anomaly_type := "price_movement"
                 severity := if |c| > 2 * T then "critical" else "high"
                 price_change := .fin c
                 current_price := pq.2.price
                 timestamp := pq.2.timestamp }
        else none := by
  intro l
  induction l with
  | nil => intro _; simp [priceScan, consecutivePairs]
  | cons p tail ih =>
    cases tail with
    | nil => intro _; simp [priceScan, consecutivePairs]
    | cons q rest =>
      intro hnz
      have hp : p.price ≠ 0 := hnz p (List.mem_cons_self _ _)
      have hpair : consecutivePairs (p :: q :: rest) =
          (p, q) :: consecutivePairs (q :: rest) := rfl
      rw [priceScan, hpair, List.filterMap_cons,
        ih (fun x hx => hnz x (List.mem_cons_of_mem p hx))]
      have hv : pctChange p.price q.price =
          .fin ((q.price - p.price) / p.price * 100) := by
        unfold pctChange
        rw [if_neg hp]
      rw [hv]
      by_cases habs : |(q.price - p.price) / p.price * 100| > T
      · have : PctVal.absGt (.fin ((q.price - p.price) / p.price * 100)) T = true := by
          simp [PctVal.absGt, habs]
        simp only [this, if_pos, if_pos habs]
        have hsev : PctVal.absGt (.fin ((q.price - p.price) / p.price * 100)) (T * 2) =
            decide (|(q.price - p.price) / p.price * 100| > 2 * T) := by
          simp [PctVal.absGt, mul_comm]
        rw [hsev]
        by_cases h2 : |(q.price - p.price) / p.price * 100| > 2 * T
        · simp [h2]
        · simp [h2]
      · have : PctVal.absGt (.fin ((q.price - p.price) / p.price * 100)) T = false := by
          simp [PctVal.absGt, habs]
        simp only [this, if_neg habs]
        simp

/-- Claim C2: for every input whose prices are nonzero (so the source's
percent changes are finite) and every symbol, `PriceMovementDetector.detect`
emits a `price_movement` anomaly for a point iff the absolute percent change
relative to the immediately preceding point of the same symbol strictly
exceeds `threshold_percent`; severity is `critical` iff the absolute change
exceeds twice the threshold and `high` otherwise; the first point of each
symbol never triggers. -/
theorem priceMovement_detect_spec (T : ℚ) (pts : List DataPoint) (s : String)
    (hnz : ∀ p ∈ pts, p.price ≠ 0) :
    (PriceMovementDetector.detect T pts).filter (fun a => a.symbol = s) =
      priceMovementSpec T s pts := by
  unfold PriceMovementDetector.detect
  by_cases hemp : pts.isEmpty
  · have hnil : pts = [] := by
      cases pts with
      | nil => rfl
      | cons a l => simp [List.isEmpty] at hemp
    subst hnil
    simp [priceMovementSpec, sortByTs, List.insertionSort, consecutivePairs]
  · rw [if_neg (by simpa using hemp)]
    rw [filter_flatMap_key (fun a => a.symbol)
      (fun symbol =>
        if (sortByTs (pts.filter (fun p => p.symbol = symbol))).length < 2 then []
        else priceScan T symbol (sortByTs (pts.filter (fun p => p.symbol = symbol))))
      s _ ?hf (nodup_dedupFirst _)]
    case hf =>
      intro t _ b hb
      simp only [] at hb
      by_cases hlen : (sortByTs (pts.filter (fun p => p.symbol = t))).length < 2
      · rw [if_pos hlen] at hb
        simp at hb
      · rw [if_neg hlen] at hb
        exact priceScan_symbol T t _ b hb
    by_cases hs : s ∈ dedupFirst (pts.map (fun p => p.symbol))
    · rw [if_pos hs]
      have hmem : ∀ p ∈ sortByTs (pts.filter (fun p => p.symbol = s)), p.price ≠ 0 := by
        intro p hp
        apply hnz
        have := (List.perm_insertionSort
          (fun a b => a.timestamp ≤ b.timestamp)
          (pts.filter (fun p => p.symbol = s))).mem_iff.mp hp
        exact (List.mem_filter.mp this).1
      by_cases hlen : (sortByTs (pts.filter (fun p => p.symbol = s))).length < 2
      · rw [if_pos hlen, priceMovementSpec,
          consecutivePairs_nil_of_short _ hlen]
        rfl
      · rw [if_neg hlen, priceMovementSpec, priceScan_eq_pairs T s _ hmem]
    · rw [if_neg hs]
      have hfil : pts.filter (fun p => p.symbol = s) = [] := by
        rw [List.filter_eq_nil_iff]
        intro p hp hps
        apply hs
        rw [mem_dedupFirst]
        simp only [decide_eq_true_eq] at hps
        exact hps ▸ List.mem_map_of_mem (fun p => p.symbol) hp
      rw [priceMovementSpec, hfil]
      simp [sortByTs, List.insertionSort, consecutivePairs]

/-- The spec's concrete scenario: AAPL at 150.0 then 160.0 (≈ +6.67 %). -/
def pmScenario : List DataPoint :=
  [⟨"AAPL", 0, 150, 0⟩, ⟨"AAPL", 0, 160, 0⟩]

theorem priceMovement_detect_spec_witness :
    (∀ p ∈ pmScenario, p.price ≠ 0) ∧
      (PriceMovementDetector.detect 5 pmScenario).filter (fun a => a.symbol = "AAPL") =
        priceMovementSpec 5 "AAPL" pmScenario :=
  ⟨by decide, priceMovement_detect_spec 5 pmScenario "AAPL" (by decide)⟩

/-! ## Time-series z-score model (src/python-services/ml-models, TimeSeriesAnomalyModel) -/

/-- The anomaly dict built by `_detect_zscore_anomalies`.  The source also
stores the z-score and the rolling std, which are square roots of rationals;
all comparisons against them are embedded squared, so those detail fields are
represented here by the value and the rolling mean. -/
structure ZAnomaly where
  symbol : String
  anomaly_type : String
  severity : String
  data_timestamp : ℚ
  value : ℚ
  rolling_mean : ℚ
deriving DecidableEq, Repr

/-- `TimeSeriesAnomalyModel._detect_zscore_anomalies` for one column of one
symbol's time-sorted data: rolling mean/std over a window of `w` rows ending
at each row (NaN while fewer than `w` rows exist), `|z| > 3` selects
candidate indices, and `idx >= window_size` keeps only rows with `w` prior
rows.  `z = (x - mean)/std` with `std = sqrt(var)`, so `|z| > 3` is embedded
as `0 < var ∧ 9·var < (x - mean)²` (a NaN z — not enough rows, or zero
variance, which forces `x = mean` — never passes), and `|z| > 4` as
`16·var < (x - mean)²`. -/
def zscoreColumn (w : ℕ) (s atype : String) (f : DataPoint → ℚ)
    (sd : List DataPoint) : List ZAnomaly :=
  (List.range sd.length).filterMap fun idx =>
    let xs := sd.map f
    let win := (xs.take (idx + 1)).drop (idx + 1 - w)
    let m := listMean win
    let v := sampleVar win
    let x := xs.getD idx 0
    if w ≤ idx + 1 ∧ 0 < v ∧ 9 * v < (x - m) ^ 2 then
      if w ≤ idx then
        some { symbol := s
               anomaly_type := atype
               severity := if 16 * v < (x - m) ^ 2 then "critical" else "high"
               data_timestamp := (sd.getD idx default).timestamp
               value := x
               rolling_mean := m }
      else none
    else none

/-- `TimeSeriesAnomalyModel.detect_time_series_anomalies`: with an empty
input, `pd.DataFrame([])` has no `symbol` column and the method raises a
`KeyError` (modelled as `none`); otherwise group by symbol, skip symbols with
fewer than `window_size` rows, and run the z-score scan on the `price` and
`volume` columns. -/
def TimeSeriesAnomalyModel.detect_time_series_anomalies (w : ℕ)
    (data_points : List DataPoint) : Option (List ZAnomaly) :=
  if data_points.isEmpty then none
  else
    some ((dedupFirst (data_points.map (fun p => p.symbol))).flatMap fun symbol =>
      let symbol_data := sortByTs (data_points.filter (fun p => p.symbol = symbol))
      if symbol_data.length < w then []
      else
        zscoreColumn w symbol "price_zscore" (fun p => p.price) symbol_data ++
        zscoreColumn w symbol "volume_zscore" (fun p => p.volume) symbol_data)

/-- Specification-side restatement of the z-score claim for one column: a row
is flagged iff it has at least `w` prior rows of its symbol and
`|value − rolling_mean| / rolling_std > 3` over the trailing window of `w`
values (embedded squared), with severity `critical` iff `|z| > 4` and `high`
otherwise. -/
def zscoreSpec (w : ℕ) (s atype : String) (f : DataPoint → ℚ)
    (sd : List DataPoint) : List ZAnomaly :=
  (List.range sd.length).filterMap fun idx =>
    if w ≤ idx then
      let win := ((sd.map f).drop (idx + 1 - w)).take w
      let m := listMean win
      let v := sampleVar win
      let x := (sd.map f).getD idx 0
      if 0 < v ∧ 9 * v < (x - m) ^ 2 then
        some { symbol := s
               anomaly_type := atype
               severity := if 16 * v < (x - m) ^ 2 then "critical" else "high"
               data_timestamp := (sd.getD idx default).timestamp
               value := x
               rolling_mean := m }
      else none
    else none

theorem zscoreColumn_symbol (w : ℕ) (s atype : String) (f : DataPoint → ℚ)
    (sd : List DataPoint) : ∀ a ∈ zscoreColumn w s atype f sd, a.symbol = s := by
  intro a ha
  unfold zscoreColumn at ha
  rw [List.mem_filterMap] at ha
  obtain ⟨idx, _, heq⟩ := ha
  simp only [] at heq
  split at heq
  · split at heq
    · cases heq
      rfl
    · cases heq
  · cases heq

theorem zscoreColumn_eq_spec (w : ℕ) (s atype : String) (f : DataPoint → ℚ)
    (sd : List DataPoint) :
    zscoreColumn w s atype f sd = zscoreSpec w s atype f sd := by
  unfold zscoreColumn zscoreSpec
  apply List.filterMap_congr
  intro idx _
  simp only []
  by_cases hw : w ≤ idx
  · have hw1 : w ≤ idx + 1 := Nat.le_succ_of_le hw
    have hwin : ((sd.map f).take (idx + 1)).drop (idx + 1 - w) =
        ((sd.map f).drop (idx + 1 - w)).take w := by
      rw [List.drop_take]
      congr 1
      omega
    rw [hwin, if_pos hw]
    by_cases hc : 0 < sampleVar (((sd.map f).drop (idx + 1 - w)).take w) ∧
        9 * sampleVar (((sd.map f).drop (idx + 1 - w)).take w) <
          ((sd.map f).getD idx 0 -
            listMean (((sd.map f).drop (idx + 1 - w)).take w)) ^ 2
    · rw [if_pos ⟨hw1, hc.1, hc.2⟩, if_pos hw, if_pos hc]
    · rw [if_neg hc]
      by_cases hcc : w ≤ idx + 1 ∧
          0 < sampleVar (((sd.map f).drop (idx + 1 - w)).take w) ∧
          9 * sampleVar (((sd.map f).drop (idx + 1 - w)).take w) <
            ((sd.map f).getD idx 0 -
              listMean (((sd.map f).drop (idx + 1 - w)).take w)) ^ 2
      · exact absurd ⟨hcc.2.1, hcc.2.2⟩ hc
      · rw [if_neg hcc, if_pos hw]
  · rw [if_neg hw]
    split
    · rfl
    · rfl

theorem zscoreSpec_nil_of_short (w : ℕ) (s atype : String) (f : DataPoint → ℚ)
    (sd : List DataPoint) (h : sd.length < w) :
    zscoreSpec w s atype f sd = [] := by
  unfold zscoreSpec
  rw [List.filterMap_eq_nil_iff]
  intro idx hidx
  rw [List.mem_range] at hidx
  simp only []
  rw [if_neg (by omega)]

/-- Claim C3: whenever `detect_time_series_anomalies` returns (the input is
nonempty), no point is flagged unless at least `window_size` prior points of
its symbol exist, a point with enough history is flagged for a column
(`price` or `volume`) iff `|value − rolling_mean| / rolling_std` over the
trailing window of `window_size` values exceeds 3, and severity is
`critical` iff `|z| > 4` and `high` otherwise. -/
theorem timeSeries_zscore_spec (w : ℕ) (pts : List DataPoint)
    (res : List ZAnomaly) (s : String)
    (h : TimeSeriesAnomalyModel.detect_time_series_anomalies w pts = some res) :
    res.filter (fun a => a.symbol = s) =
      zscoreSpec w s "price_zscore" (fun p => p.price)
        (sortByTs (pts.filter (fun p => p.symbol = s))) ++
      zscoreSpec w s "volume_zscore" (fun p => p.volume)
        (sortByTs (pts.filter (fun p => p.symbol = s))) := by
  unfold TimeSeriesAnomalyModel.detect_time_series_anomalies at h
  by_cases hemp : pts.isEmpty
  · rw [if_pos hemp] at h
    cases h
  · rw [if_neg hemp] at h
    injection h with h
    subst h
    rw [filter_flatMap_key (fun a => a.symbol)
      (fun symbol =>
        if (sortByTs (pts.filter (fun p => p.symbol = symbol))).length < w then []
        else
          zscoreColumn w symbol "price_zscore" (fun p => p.price)
            (sortByTs (pts.filter (fun p => p.symbol = symbol))) ++
          zscoreColumn w symbol "volume_zscore" (fun p => p.volume)
            (sortByTs (pts.filter (fun p => p.symbol = symbol))))
      s _ ?hf (nodup_dedupFirst _)]
    case hf =>
      intro t _ b hb
      simp only [] at hb
      by_cases hlen : (sortByTs (pts.filter (fun p => p.symbol = t))).length < w
      · rw [if_pos hlen] at hb
        simp at hb
      · rw [if_neg hlen] at hb
        rw [List.mem_append] at hb
        rcases hb with hb | hb
        · exact zscoreColumn_symbol w t _ _ _ b hb
        · exact zscoreColumn_symbol w t _ _ _ b hb
    by_cases hs : s ∈ dedupFirst (pts.map (fun p => p.symbol))
    · rw [if_pos hs]
      by_cases hlen : (sortByTs (pts.filter (fun p => p.symbol = s))).length < w
      · rw [if_pos hlen, zscoreSpec_nil_of_short w s _ _ _ hlen,
          zscoreSpec_nil_of_short w s _ _ _ hlen]
        rfl
      · rw [if_neg hlen, zscoreColumn_eq_spec, zscoreColumn_eq_spec]
    · rw [if_neg hs]
      have hfil : pts.filter (fun p => p.symbol = s) = [] := by
        rw [List.filter_eq_nil_iff]
        intro p hp hps
        apply hs
        rw [mem_dedupFirst]
        simp only [decide_eq_true_eq] at hps
        exact hps ▸ List.mem_map_of_mem (fun p => p.symbol) hp
      rw [hfil]
      simp [zscoreSpec, sortByTs, List.insertionSort]

/-- The spec's synthetic series: twelve constant points then one spike, one
symbol.  Exactly the spike row (index 12) has twelve prior rows and
`z² = 121/12 > 9` (and `< 16`, hence severity `high`). -/
def tsaPts : List DataPoint :=
  (List.range 13).map (fun i => ⟨"A", i, if i = 12 then 2 else 1, 5⟩)

def tsaRes : List ZAnomaly :=
  (TimeSeriesAnomalyModel.detect_time_series_anomalies 12 tsaPts).getD []

theorem timeSeries_zscore_spec_witness :
    TimeSeriesAnomalyModel.detect_time_series_anomalies 12 tsaPts = some tsaRes ∧
      tsaRes.filter (fun a => a.symbol = "A") =
        zscoreSpec 12 "A" "price_zscore" (fun p => p.price)
          (sortByTs (tsaPts.filter (fun p => p.symbol = "A"))) ++
        zscoreSpec 12 "A" "volume_zscore" (fun p => p.volume)
          (sortByTs (tsaPts.filter (fun p => p.symbol = "A"))) :=
  ⟨rfl, timeSeries_zscore_spec 12 tsaPts tsaRes "A" rfl⟩

/-! ## ML anomaly model (src/python-services/ml-models, AnomalyMLModel) -/

/-- The mutable fields of `AnomalyMLModel`.  The sklearn `IsolationForest`
and `StandardScaler` objects are external; they are represented by ℕ handles
whose behaviour lives in `MLEnv`. -/
structure AnomalyMLModel where
  contamination : ℚ
  model : ℕ
  scaler : ℕ
  is_trained : Bool
  feature_columns : List String
deriving DecidableEq, Repr

/-- Behaviour of the external sklearn world: fitting returns a new fitted
object (or raises), transforming and predicting consume a handle.  `sqrtFn`
models the floating-point square root used for the rolling-std features; no
theorem depends on its values. -/
structure MLEnv where
  scalerFit : ℕ → List (List ℚ) → Except String (ℕ × List (List ℚ))
  scalerTransform : ℕ → List (List ℚ) → Except String (List (List ℚ))
  modelFit : ℕ → List (List ℚ) → Except String ℕ
  modelPredict : ℕ → List (List ℚ) → List Int
  modelScore : ℕ → List (List ℚ) → List ℚ
  sqrtFn : ℚ → ℚ

/-- One entry of `Series.pct_change() * 100` after `fillna(0)` as used in
`prepare_features`.  A zero previous value, where pandas produces ±infinity
or NaN that `fillna` does not replace, is modelled as 0 here; no theorem
depends on feature values. -/
def pctChangeFilled (prev cur : ℚ) : ℚ := (cur - prev) / prev * 100

/-- One row of the feature frame built by `AnomalyMLModel.prepare_features`
for row `idx` of the globally time-sorted data: price, volume, price and
volume percent change against the previous row of the same symbol (0 for the
symbol's first row), rolling (window 5) standard deviation of the two percent
change series (0 until five changes exist), and minutes since that symbol's
previous row.  The `price_change`/`volume_change` diffs the source also
computes are not among `feature_columns` and are dropped. -/
def featureRow (env : MLEnv) (df : List DataPoint) (idx : ℕ) : List ℚ :=
  let p := df.getD idx default
  let symRows := (df.take (idx + 1)).filter (fun q => q.symbol = p.symbol)
  let pos := symRows.length - 1
  let pcts := (consecutivePairs symRows).map fun ab =>
    pctChangeFilled ab.1.price ab.2.price
  let vpcts := (consecutivePairs symRows).map fun ab =>
    pctChangeFilled ab.1.volume ab.2.volume
  let ppct := if pos = 0 then 0 else pcts.getD (pos - 1) 0
  let vpct := if pos = 0 then 0 else vpcts.getD (pos - 1) 0
  let pvol := if 5 ≤ pos then env.sqrtFn (sampleVar ((pcts.drop (pos - 5)).take 5)) else 0
  let vvol := if 5 ≤ pos then env.sqrtFn (sampleVar ((vpcts.drop (pos - 5)).take 5)) else 0
  let tsince := if pos = 0 then 0
    else p.timestamp - (symRows.getD (pos - 1) default).timestamp
  [p.price, p.volume, ppct, vpct, pvol, vvol, tsince]

/-- `AnomalyMLModel.prepare_features`: empty input gives an empty frame;
otherwise sort all points by timestamp and build one feature row per point. -/
def prepare_features (env : MLEnv) (data_points : List DataPoint) :
    List (List ℚ) :=
  if data_points.isEmpty then []
  else
    (List.range (sortByTs data_points).length).map
      (featureRow env (sortByTs data_points))

/-- `AnomalyMLModel._get_severity_from_score`. -/
def getSeverityFromScore (score : ℚ) : String :=
  if score < -(1 / 2 : ℚ) then "critical"
  else if score < -(3 / 10 : ℚ) then "high"
  else if score < -(1 / 10 : ℚ) then "medium"
  else "low"

/-- The anomaly dict built by `predict_anomalies`. -/
structure MLAnomaly where
  symbol : String
  anomaly_type : String
  severity : String
  data_timestamp : ℚ
  anomaly_score : ℚ
deriving DecidableEq, Repr

/-- `AnomalyMLModel.predict_anomalies`: an untrained model logs a warning and
returns `[]`; an empty feature frame returns `[]`; otherwise scale (the
except handler turns a raise into `[]`), predict, and keep one anomaly per
index with prediction −1.  As in the source, `enumerate(zip(predictions,
anomaly_scores))` is indexed back into the original (unsorted) input list. -/
def AnomalyMLModel.predict_anomalies (env : MLEnv) (m : AnomalyMLModel)
    (data_points : List DataPoint) : List MLAnomaly :=
  if m.is_trained = false then []
  else
    let features := prepare_features env data_points
    if features.isEmpty then []
    else
      match env.scalerTransform m.scaler features with
      | .error _ => []
      | .ok scaled =>
        let predictions := env.modelPredict m.model scaled
        let scores := env.modelScore m.model scaled
        (List.range (min predictions.length scores.length)).filterMap fun i =>
          if predictions.getD i 0 = -1 then
            some { symbol := (data_points.getD i default).symbol
                   anomaly_type := "ml_detected"
                   severity := getSeverityFromScore (scores.getD i 0)
                   data_timestamp := (data_points.getD i default).timestamp
                   anomaly_score := scores.getD i 0 }
          else none

/-- `AnomalyMLModel.train`: empty features log an error and return `False`;
`scaler.fit_transform` refits the scaler object in place; a raise from the
model fit is caught by the handler and returns `False` with the scaler
already refit; on success `is_trained` is set and `True` returned. -/
def AnomalyMLModel.train (env : MLEnv) (m : AnomalyMLModel)
    (training_data : List DataPoint) : Bool × AnomalyMLModel :=
  let features := prepare_features env training_data
  if features.isEmpty then (false, m)
  else
    match env.scalerFit m.scaler features with
    | .error _ => (false, m)
    | .ok (sc, features_scaled) =>
      let m1 := { m with scaler := sc }
      match env.modelFit m1.model features_scaled with
      | .error _ => (false, m1)
      | .ok mo => (true, { m1 with model := mo, is_trained := true })

/-- The dict read back by `joblib.load` in `load_model`; a `none` field
models a missing key (a `KeyError` at that subscript). -/
structure SavedBlob where
  model : Option ℕ
  scaler : Option ℕ
  is_trained : Option Bool
  feature_columns : Option (List String)
  contamination : Option ℚ
deriving DecidableEq, Repr

/-- `AnomalyMLModel.load_model`: `joblib.load` (a `none` argument models the
load itself raising), then field-by-field assignment in source order
`model, scaler, is_trained, feature_columns, contamination`; a missing key
raises after the earlier assignments already happened, and the except
handler returns `False`. -/
def AnomalyMLModel.load_model (m : AnomalyMLModel) (blob : Option SavedBlob) :
    Bool × AnomalyMLModel :=
  match blob with
  | none => (false, m)
  | some b =>
    match b.model with
    | none => (false, m)
    | some mo =>
      let m1 := { m with model := mo }
      match b.scaler with
      | none => (false, m1)
      | some sc =>
        let m2 := { m1 with scaler := sc }
        match b.is_trained with
        | none => (false, m2)
        | some it =>
          let m3 := { m2 with is_trained := it }
          match b.feature_columns with
          | none => (false, m3)
          | some fc =>
            let m4 := { m3 with feature_columns := fc }
            match b.contamination with
            | none => (false, m4)
            | some ct => (true, { m4 with contamination := ct })

/-- Claim C4: while `is_trained` is false (no successful `train` yet),
`predict_anomalies` returns the empty list for every input and does not
raise (the embedding is total; the source returns inside the guard before
any fallible call). -/
theorem predictAnomalies_untrained (env : MLEnv) (m : AnomalyMLModel)
    (pts : List DataPoint) (h : m.is_trained = false) :
    m.predict_anomalies env pts = [] := by
  unfold AnomalyMLModel.predict_anomalies
  rw [h]
  rw [if_pos rfl]

/-- A trivial sklearn environment for concrete instantiations. -/
def trivialMLEnv : MLEnv :=
  { scalerFit := fun s f => .ok (s + 1, f)
    scalerTransform := fun _ f => .ok f
    modelFit := fun mo _ => .ok (mo + 1)
    modelPredict := fun _ rows => rows.map (fun _ => -1)
    modelScore := fun _ rows => rows.map (fun _ => 0)
    sqrtFn := fun q => q }

/-- A freshly constructed `AnomalyMLModel()` (contamination 0.1 in the
source; 0 here so that concrete record comparisons kernel-reduce). -/
def freshModel : AnomalyMLModel :=
  { contamination := 0
    model := 0
    scaler := 0
    is_trained := false
    feature_columns :=
      ["price", "volume", "price_change_pct", "volume_change_pct",
       "price_volatility", "volume_volatility", "time_since_last_update"] }

theorem predictAnomalies_untrained_witness :
    freshModel.is_trained = false ∧
      freshModel.predict_anomalies trivialMLEnv [⟨"AAPL", 0, 150, 1000⟩] = [] :=
  ⟨rfl, predictAnomalies_untrained trivialMLEnv freshModel
    [⟨"AAPL", 0, 150, 1000⟩] rfl⟩

/-- A stale model state and a blob with a `model` entry but no `scaler` key
(e.g. written by a different version of the saving code). -/
def staleModel : AnomalyMLModel :=
  { contamination := 0, model := 0, scaler := 0, is_trained := false,
    feature_columns := [] }

def blobMissingScaler : SavedBlob :=
  { model := some 7, scaler := none, is_trained := none,
    feature_columns := none, contamination := none }

/-- Claim C7, counterexample: `load_model` on a blob whose dict lacks the
`scaler` key returns `False` yet has already replaced `self.model`, leaving
the scaler paired with a model it was not fitted with — the claimed
all-or-nothing update fails. -/
theorem loadModel_unit_update_counterexample :
    (staleModel.load_model (some blobMissingScaler)).1 = false ∧
      (staleModel.load_model (some blobMissingScaler)).2.model ≠ staleModel.model ∧
      (staleModel.load_model (some blobMissingScaler)).2.scaler = staleModel.scaler :=
  ⟨rfl, by decide, rfl⟩

theorem prepare_features_ne_nil (env : MLEnv) (data : List DataPoint)
    (h : data ≠ []) : prepare_features env data ≠ [] := by
  unfold prepare_features
  rw [if_neg (by simpa using h)]
  have hlen : (sortByTs data).length = data.length :=
    (List.perm_insertionSort _ data).length_eq
  intro hmap
  have := congrArg List.length hmap
  rw [List.length_map, List.length_range, hlen] at this
  exact h (List.length_eq_zero.mp this)

/-- Claim C7 (amended): the failed-update discipline the code actually has.
`load_model` assigns the five fields in the fixed order `model, scaler,
is_trained, feature_columns, contamination` and stops at the first missing
piece, so a failing reload keeps exactly the already-assigned leading fields
(in particular a blob with `model` but no `scaler` leaves the model updated
and the scaler not — the original unit-update claim fails there) and a
successful reload installs all five as a unit.  `train` leaves everything
unchanged when features are empty or the scaler fit raises, leaves only the
scaler refit when the model fit raises afterwards, and on success installs
scaler, model and `is_trained` together. -/
theorem mlModel_update_discipline (env : MLEnv) (m : AnomalyMLModel)
    (data : List DataPoint) (b : SavedBlob) :
    (AnomalyMLModel.load_model m none = (false, m)) ∧
    (b.model = none → m.load_model (some b) = (false, m)) ∧
    (∀ mo, b.model = some mo → b.scaler = none →
      m.load_model (some b) = (false, { m with model := mo })) ∧
    (∀ mo sc, b.model = some mo → b.scaler = some sc → b.is_trained = none →
      m.load_model (some b) = (false, { m with model := mo, scaler := sc })) ∧
    (∀ mo sc it, b.model = some mo → b.scaler = some sc →
      b.is_trained = some it → b.feature_columns = none →
      m.load_model (some b) =
        (false, { m with model := mo, scaler := sc, is_trained := it })) ∧
    (∀ mo sc it fc, b.model = some mo → b.scaler = some sc →
      b.is_trained = some it → b.feature_columns = some fc →
      b.contamination = none →
      m.load_model (some b) =
        (false, { m with model := mo, scaler := sc, is_trained := it,
                         feature_columns := fc })) ∧
    (∀ mo sc it fc ct, b.model = some mo → b.scaler = some sc →
      b.is_trained = some it → b.feature_columns = some fc →
      b.contamination = some ct →
      m.load_model (some b) =
        (true, { contamination := ct, model := mo, scaler := sc,
                 is_trained := it, feature_columns := fc })) ∧
    (data = [] → m.train env data = (false, m)) ∧
    (∀ e, env.scalerFit m.scaler (prepare_features env data) = .error e →
      m.train env data = (false, m)) ∧
    (∀ sc scaled e, data ≠ [] →
      env.scalerFit m.scaler (prepare_features env data) = .ok (sc, scaled) →
      env.modelFit m.model scaled = .error e →
      m.train env data = (false, { m with scaler := sc })) ∧
    (∀ sc scaled mo, data ≠ [] →
      env.scalerFit m.scaler (prepare_features env data) = .ok (sc, scaled) →
      env.modelFit m.model scaled = .ok mo →
      m.train env data =
        (true, { m with scaler := sc, model := mo, is_trained := true })) := by
  refine ⟨rfl, ?_, ?_, ?_, ?_, ?_, ?_, ?_, ?_, ?_, ?_⟩
  · intro h
    simp [AnomalyMLModel.load_model, h]
  · intro mo h1 h2
    simp [AnomalyMLModel.load_model, h1, h2]
  · intro mo sc h1 h2 h3
    simp [AnomalyMLModel.load_model, h1, h2, h3]
  · intro mo sc it h1 h2 h3 h4
    simp [AnomalyMLModel.load_model, h1, h2, h3, h4]
  · intro mo sc it fc h1 h2 h3 h4 h5
    simp [AnomalyMLModel.load_model, h1, h2, h3, h4, h5]
  · intro mo sc it fc ct h1 h2 h3 h4 h5
    simp [AnomalyMLModel.load_model, h1, h2, h3, h4, h5]
  · intro h
    subst h
    rfl
  · intro e he
    unfold AnomalyMLModel.train
    by_cases hemp : (prepare_features env data).isEmpty
    · rw [if_pos hemp]
    · rw [if_neg hemp, he]
  · intro sc scaled e hdata hsc hmf
    have hne := prepare_features_ne_nil env data hdata
    simp [AnomalyMLModel.train, hsc, hmf, List.isEmpty_iff, hne]
  · intro sc scaled mo hdata hsc hmf
    have hne := prepare_features_ne_nil env data hdata
    simp [AnomalyMLModel.train, hsc, hmf, List.isEmpty_iff, hne]

/-- An environment whose model fit raises (after the scaler fit succeeded). -/
def failFitEnv : MLEnv :=
  { scalerFit := fun s f => .ok (s + 1, f)
    scalerTransform := fun _ f => .ok f
    modelFit := fun _ _ => .error "fit raised"
    modelPredict := fun _ _ => []
    modelScore := fun _ _ => []
    sqrtFn := fun q => q }

theorem mlModel_update_discipline_witness :
    (staleModel.load_model (some blobMissingScaler) =
      (false, { staleModel with model := 7 })) ∧
    (staleModel.train failFitEnv [⟨"AAPL", 0, 150, 1000⟩] =
      (false, { staleModel with scaler := 1 })) :=
  ⟨(mlModel_update_discipline failFitEnv staleModel [] blobMissingScaler).2.2.1
      7 rfl rfl,
   (mlModel_update_discipline failFitEnv staleModel
       [⟨"AAPL", 0, 150, 1000⟩] blobMissingScaler).2.2.2.2.2.2.2.2.2.1
      1 (prepare_features failFitEnv [⟨"AAPL", 0, 150, 1000⟩]) "fit raised"
      (by decide) rfl rfl⟩

/-! ## AlertRuleEngine (spec §4.4)

The engine itself is not under src/ — only the `AlertRule` configuration
model (src/src/models/data_models.py, lines 132–161) is — so the evaluation
state machine is modelled from the spec.  Engine timestamps are minutes as
`Int`; times of day are minutes into the day. -/

/-- The `Severity` enum of data_models.py with its fixed ordering
low < medium < high < critical. -/
inductive Severity where
  | low
  | medium
  | high
  | critical
deriving DecidableEq, Repr

/-- Rank realising the ordering low < medium < high < critical. -/
def Severity.rank : Severity → ℕ
  | .low => 0
  | .medium => 1
  | .high => 2
  | .critical => 3

/-- An anomaly as the alert rule engine filters it. -/
structure AlertAnomaly where
  symbol : String
  source : String
  anomaly_type : String
  severity : Severity
deriving DecidableEq, Repr

/-- The `AlertRule` configuration model: filter components, active-hour
window (with a timezone offset in minutes), `max_alerts_per_hour`,
`cooldown_minutes`, `enabled`. -/
structure AlertRule where
  enabled : Bool
  symbols : List String
  data_sources : List String
  anomaly_types : List String
  min_severity : Severity
  active_hours_start : Int
  active_hours_end : Int
  tz_offset : Int
  max_alerts_per_hour : ℕ
  cooldown_minutes : ℕ
deriving DecidableEq, Repr

/-- Modelled from the spec: the AlertRuleEngine's per-rule state — "a sliding
count of alerts sent in the trailing hour and the timestamp of the last alert
sent for that rule" (the engine is missing from src/). -/
structure RuleState where
  sent_times : List Int
  last_sent : Option Int
deriving DecidableEq, Repr

/-- Modelled from the spec: check (e) — the current time converted to the
rule's timezone falls within [active_hours_start, active_hours_end), a window
that may wrap past midnight. -/
def inActiveHours (r : AlertRule) (now : Int) : Bool :=
  let tod := (now + r.tz_offset) % 1440
  if r.active_hours_start ≤ r.active_hours_end then
    r.active_hours_start ≤ tod ∧ tod < r.active_hours_end
  else
    r.active_hours_start ≤ tod ∨ tod < r.active_hours_end

/-- Modelled from the spec: checks (a)–(e) — the rule is enabled, the
anomaly's symbol, source and type pass their allow-lists under the
empty-means-all convention, its severity is ≥ the rule's minimum on the fixed
ordering, and the current time is within active hours. -/
def staticChecks (r : AlertRule) (a : AlertAnomaly) (now : Int) : Bool :=
  r.enabled &&
  (r.symbols.isEmpty || r.symbols.contains a.symbol) &&
  (r.data_sources.isEmpty || r.data_sources.contains a.source) &&
  (r.anomaly_types.isEmpty || r.anomaly_types.contains a.anomaly_type) &&
  (r.min_severity.rank ≤ a.severity.rank) &&
  inActiveHours r now

/-- Modelled from the spec: the sliding count of alerts this rule sent in the
trailing hour. -/
def trailingHourCount (st : RuleState) (now : Int) : ℕ :=
  (st.sent_times.filter (fun t => now - 60 < t ∧ t ≤ now)).length

/-- Modelled from the spec: checks (f) and (g) — dispatching now must not
exceed `max_alerts_per_hour` in the trailing hour, and at least
`cooldown_minutes` must have elapsed since this rule's last dispatch. -/
def rateChecks (r : AlertRule) (st : RuleState) (now : Int) : Bool :=
  (trailingHourCount st now < r.max_alerts_per_hour) &&
  (match st.last_sent with
   | none => true
   | some t => (r.cooldown_minutes : Int) ≤ now - t)

/-- Modelled from the spec: all checks (a)–(g). -/
def passes (r : AlertRule) (st : RuleState) (a : AlertAnomaly) (now : Int) :
    Bool :=
  staticChecks r a now && rateChecks r st now

/-- Modelled from the spec: evaluating one anomaly against one rule — a rule
that passes all checks dispatches and updates its rate and cooldown state
atomically with the decision; a rule that fails any check is skipped without
mutating its state. -/
def AlertRuleEngine.evaluate (r : AlertRule) (st : RuleState)
    (a : AlertAnomaly) (now : Int) : Bool × RuleState :=
  if passes r st a now then
    (true, { sent_times := st.sent_times ++ [now], last_sent := some now })
  else (false, st)

/-- Claim C9 (spec-modelled): with `max_alerts_per_hour = 1`, two anomalies
that both satisfy the rule's filters within the same trailing hour produce
exactly one dispatch (the first dispatches from a fresh state, the second is
rate-limited); with `cooldown_minutes = 15`, a second qualifying anomaly
within 15 minutes of the rule's last dispatch is suppressed regardless of the
hourly cap; and a rule that fails any check dispatches nothing with its
rate/cooldown state unchanged. -/
theorem alertRule_rate_cooldown (r : AlertRule) (st : RuleState)
    (a1 a2 : AlertAnomaly) (t1 t2 : Int) :
    (r.max_alerts_per_hour = 1 → staticChecks r a1 t1 = true →
      staticChecks r a2 t2 = true → t1 ≤ t2 → t2 - t1 < 60 →
      (AlertRuleEngine.evaluate r ⟨[], none⟩ a1 t1).1 = true ∧
      (AlertRuleEngine.evaluate r
        (AlertRuleEngine.evaluate r ⟨[], none⟩ a1 t1).2 a2 t2).1 = false) ∧
    (∀ t0, r.cooldown_minutes = 15 → st.last_sent = some t0 → t2 - t0 < 15 →
      AlertRuleEngine.evaluate r st a2 t2 = (false, st)) ∧
    (passes r st a2 t2 = false →
      AlertRuleEngine.evaluate r st a2 t2 = (false, st)) := by
  refine ⟨?_, ?_, ?_⟩
  · intro hmax h1 h2 hle hlt
    have hev1 : AlertRuleEngine.evaluate r ⟨[], none⟩ a1 t1 =
        (true, ⟨[t1], some t1⟩) := by
      unfold AlertRuleEngine.evaluate
      rw [if_pos]
      · rfl
      · unfold passes rateChecks trailingHourCount
        simp [h1, hmax]
    refine ⟨by rw [hev1], ?_⟩
    rw [hev1]
    have hcnt : trailingHourCount ⟨[t1], some t1⟩ t2 = 1 := by
      unfold trailingHourCount
      have hmem : t2 - 60 < t1 ∧ t1 ≤ t2 := ⟨by omega, hle⟩
      simp [hmem]
    have hnp : passes r ⟨[t1], some t1⟩ a2 t2 = false := by
      unfold passes rateChecks
      rw [hcnt, hmax]
      simp
    unfold AlertRuleEngine.evaluate
    rw [if_neg (by simp [hnp])]
  · intro t0 hcd hlast hwithin
    have hlt2 : ¬ ((15 : ℕ) : Int) ≤ t2 - t0 := by omega
    have hnp : passes r st a2 t2 = false := by
      unfold passes rateChecks
      rw [hlast, hcd]
      simp [hlt2]
      intro _ _
      omega
    unfold AlertRuleEngine.evaluate
    rw [if_neg (by simp [hnp])]
  · intro hp
    unfold AlertRuleEngine.evaluate
    rw [if_neg (by simp [hp])]

/-- A wide-open rule: all symbols/sources/types, minimum severity medium,
active around the clock, one alert per hour, 15-minute cooldown. -/
def demoRule : AlertRule :=
  { enabled := true
    symbols := []
    data_sources := []
    anomaly_types := []
    min_severity := .medium
    active_hours_start := 0
    active_hours_end := 1440
    tz_offset := 0
    max_alerts_per_hour := 1
    cooldown_minutes := 15 }

def demoAnomaly : AlertAnomaly :=
  { symbol := "AAPL"
    source := "gemfire"
    anomaly_type := "missing_data"
    severity := .high }

theorem alertRule_rate_cooldown_witness :
    ((AlertRuleEngine.evaluate demoRule ⟨[], none⟩ demoAnomaly 100).1 = true ∧
      (AlertRuleEngine.evaluate demoRule
        (AlertRuleEngine.evaluate demoRule ⟨[], none⟩ demoAnomaly 100).2
        demoAnomaly 130).1 = false) ∧
    (AlertRuleEngine.evaluate demoRule ⟨[100], some 100⟩ demoAnomaly 110 =
      (false, ⟨[100], some 100⟩)) ∧
    (AlertRuleEngine.evaluate { demoRule with enabled := false } ⟨[], none⟩
        demoAnomaly 100 = (false, ⟨[], none⟩)) :=
  ⟨(alertRule_rate_cooldown demoRule ⟨[100], some 100⟩ demoAnomaly demoAnomaly
      100 130).1 rfl (by decide) (by decide) (by decide) (by decide),
   (alertRule_rate_cooldown demoRule ⟨[100], some 100⟩ demoAnomaly demoAnomaly
      100 110).2.1 100 rfl rfl (by decide),
   (alertRule_rate_cooldown { demoRule with enabled := false } ⟨[], none⟩
      demoAnomaly demoAnomaly 100 100).2.2 (by decide)⟩
